import Mathlib

/-!
Verification development for the kraken-dca bot.

Shallow embedding of the program in src/main.py and src/discord_utils.py:
pure computations become Lean functions, Python floats are modelled as
exact rationals, network calls are modelled by environments supplying each
call's outcome (an `Except` value: `.error` is a raised exception,
`.ok` a returned response), and the observable side effects of a run are
collected into an explicit event trace.
-/

namespace KrakenDCA

/-- UTF-8 encoding of one character, as Python's str.encode produces for it. -/
def utf8Bytes (c : Char) : List Nat :=
  let n := c.toNat
  if n < 128 then [n]
  else if n < 2048 then [192 + n / 64, 128 + n % 64]
  else if n < 65536 then [224 + n / 4096, 128 + (n / 64) % 64, 128 + n % 64]
  else [240 + n / 262144, 128 + (n / 4096) % 64, 128 + (n / 64) % 64, 128 + n % 64]

/-- Python str.encode(): the UTF-8 bytes of a string. -/
def pyEncode (s : String) : List Nat := s.data.flatMap utf8Bytes

/-- The external cryptographic primitives used by src/main.py: hashlib.sha256,
hmac with hashlib.sha512, and base64 encode/decode. These are library
collaborators of the repository, so the embedding is parameterized over them;
the repository's own code is the way it composes them. -/
structure CryptoPrims where
  sha256 : List Nat → List Nat
  hmacSha512 : List Nat → List Nat → List Nat
  b64decode : String → List Nat
  b64encode : List Nat → String

/-- src/main.py `sign`: base64-encode the HMAC-SHA512 digest of the message
under the base64-decoded private key. -/
def sign (p : CryptoPrims) (private_key : String) (message : List Nat) : String :=
  p.b64encode (p.hmacSha512 (p.b64decode private_key) message)

/-- src/main.py `get_signature`: sign path bytes followed by the SHA256 digest
of the encoded concatenation of nonce and body data. -/
def get_signature (p : CryptoPrims) (private_key : String) (data : String)
    (nonce : String) (path : String) : String :=
  sign p private_key (pyEncode path ++ p.sha256 (pyEncode (nonce ++ data)))

/-- Characters Python's urllib quoting never escapes: ASCII letters, digits,
and underscore, dot, dash, tilde. -/
def urlSafe (c : Char) : Bool :=
  c.isAlpha || c.isDigit || c = '_' || c = '.' || c = '-' || c = '~'

/-- Uppercase hexadecimal digit for a value below 16. -/
def hexUpper (n : Nat) : Char :=
  if n < 10 then Char.ofNat (48 + n) else Char.ofNat (55 + n)

/-- urllib.parse.quote_plus on one character: safe characters pass through,
space becomes a plus, anything else is percent-encoded per UTF-8 byte. -/
def quotePlusChar (c : Char) : List Char :=
  if urlSafe c then [c]
  else if c = ' ' then ['+']
  else (utf8Bytes c).flatMap (fun b => ['%', hexUpper (b / 16), hexUpper (b % 16)])

/-- urllib.parse.quote_plus on a string. -/
def quote_plus (s : String) : String := String.mk (s.data.flatMap quotePlusChar)

/-- Python `'&'.join` over `key=value` pairs, exactly as
src/main.py builds `post_data_encoded`. -/
def joinAmp : List (String × String) → String
  | [] => ""
  | [kv] => kv.1 ++ "=" ++ kv.2
  | kv :: rest => kv.1 ++ "=" ++ kv.2 ++ "&" ++ joinAmp rest

/-- urllib.parse.urlencode as applied by requests to a dict body: each key and
value is quote_plus-escaped, pairs joined the same way. This is the POST body
the requests library actually sends for `data=post_data`. -/
def urlencode (ps : List (String × String)) : String :=
  joinAmp (ps.map (fun kv => (quote_plus kv.1, quote_plus kv.2)))

/-- The AddOrder body fields of src/main.py `pass_market_order`, in dict
insertion order: nonce, ordertype, type, volume, pair. The volume is carried
here as its Python string form, as the f-string serialization renders it. -/
def marketOrderFields (nonce volume pair : String) : List (String × String) :=
  [("nonce", nonce), ("ordertype", "market"), ("type", "buy"),
   ("volume", volume), ("pair", pair)]

/-- The observable content of one AddOrder request: the path, the API-Sign
header, the string the signature was computed over, and the body the requests
library sends on the wire. -/
structure AddOrderRequest where
  url_path : String
  api_key_header : String
  api_sign : String
  signed_string : String
  sent_body : String

/-- src/main.py `pass_market_order`, request-construction part: builds the
body fields, serializes them with `'&'.join` for signing, signs, and posts the
dict (which requests serializes with urlencode). -/
def pass_market_order (p : CryptoPrims) (api_key api_secret pair volume nonce : String) :
    AddOrderRequest :=
  let url_path := "/0/private/AddOrder"
  let fields := marketOrderFields nonce volume pair
  let post_data_encoded := joinAmp fields
  { url_path := url_path
  , api_key_header := api_key
  , api_sign := get_signature p api_secret post_data_encoded nonce url_path
  , signed_string := post_data_encoded
  , sent_body := urlencode fields }

/-- The epsilon used by the balance gate in src/main.py: 1e-8. -/
def epsilon : ℚ := 1 / 100000000

/-- Python round-half-to-even of a rational to an integer, the tie-breaking
rule of the built-in round. (Python rounds the binary double; the embedding
models the numeric values exactly as rationals.) -/
def roundHalfEven (x : ℚ) : ℤ :=
  let f := ⌊x⌋
  let frac := x - f
  if frac < 1 / 2 then f
  else if 1 / 2 < frac then f + 1
  else if f % 2 = 0 then f else f + 1

/-- Python round(x, 8), as used on the computed volume. -/
def round8 (x : ℚ) : ℚ := (roundHalfEven (x * 100000000) : ℚ) / 100000000

/-- src/main.py `eur_to_volume`, given the ask price its inner
`get_ask_price` call returned: volume = round(amount_eur / price, 8). -/
def eur_to_volume (amount_eur price : ℚ) : ℚ := round8 (amount_eur / price)

/-- Python int() truncation toward zero of a rational, as used by
`get_nonce` on time.time() * 1000. -/
def pyInt (x : ℚ) : ℤ := if 0 ≤ x then ⌊x⌋ else ⌈x⌉

/-- src/main.py `get_nonce` as a function of the wall-clock reading t in
seconds: int(t * 1000). -/
def get_nonce (t : ℚ) : ℤ := pyInt (t * 1000)

/-- One configured DCA strategy: the dataclass Strategy of src/main.py. -/
structure Strategy where
  pair : String
  amount_eur : ℚ
deriving DecidableEq

/-- A parsed /0/private/Balance response: its error list (empty when the key
is absent or the list empty, both falsy in Python) and its result map, as an
association list from currency code to amount. -/
structure BalanceResp where
  error : List String
  result : List (String × ℚ)
deriving DecidableEq

/-- Python dict get on an association list: the value at the first matching
key, if any. -/
def assocGet : List (String × ℚ) → String → Option ℚ
  | [], _ => none
  | kv :: rest, k => if kv.1 = k then some kv.2 else assocGet rest k

/-- src/main.py line 150: balances.get('ZEUR', balances.get('EUR', 0.0)). -/
def availableEur (balances : List (String × ℚ)) : ℚ :=
  match assocGet balances "ZEUR" with
  | some v => v
  | none =>
    match assocGet balances "EUR" with
    | some v => v
    | none => 0

/-- The total fiat the run needs: sum of s.amount_eur over all strategies. -/
def totalRequired (ss : List Strategy) : ℚ := (ss.map (fun s => s.amount_eur)).sum

/-- A parsed /0/private/AddOrder response: error list and txid list. -/
structure OrderResponse where
  error : List String
  txid : List String
deriving DecidableEq

/-- The notification payloads built by src/discord_utils.py, one constructor
per create_*_embed builder (plus the balance-fetch-failure use of the
exception embed, kept structured here). -/
inductive Embed where
  | start (strategyCount : Nat)
  | dryRunEmbed (pair : String) (amount_eur price volume : ℚ)
  | successEmbed (pair : String) (volume price : ℚ) (txid : List String)
  | errorEmbed (pair : String) (volume price : ℚ) (errors : List String)
  | exceptionEmbed (pair : String) (msg : String)
  | completion
  | insufficientFunds (required available : ℚ)
  | balanceError (errors : List String)
deriving DecidableEq

/-- The observable external actions of a run, in order: the balance fetch,
the system-status fetch, ticker fetches, order placements (the call to
pass_market_order, whether or not it raises), and notification attempts
(calls to send_discord_message). -/
inductive Event where
  | fetchBalance
  | fetchStatus
  | fetchTicker (pair : String)
  | placeOrder (pair : String) (volume : ℚ)
  | notify (embed : Embed)
deriving DecidableEq

/-- The decision of the pre-trade balance gate. -/
inductive GateOutcome where
  | fetchError (errors : List String)
  | insufficient (required available : ℚ)
  | ok
deriving DecidableEq

/-- src/main.py `ensure_sufficient_funds`: sum the required fiat, fetch the
balance, abort on a response error, otherwise abort when
available + 1e-8 < required. Returns the emitted events together with the
outcome; a non-ok outcome is the raised SystemExit. -/
def ensure_sufficient_funds (ss : List Strategy) (resp : BalanceResp) :
    List Event × GateOutcome :=
  let required := totalRequired ss
  match resp.error with
  | e :: es =>
    ([Event.fetchBalance, Event.notify (Embed.balanceError (e :: es))],
     GateOutcome.fetchError (e :: es))
  | [] =>
    let avail := availableEur resp.result
    if avail + epsilon < required then
      ([Event.fetchBalance, Event.notify (Embed.insufficientFunds required avail)],
       GateOutcome.insufficient required avail)
    else ([Event.fetchBalance], GateOutcome.ok)

/-- The network outcomes one strategy iteration can observe: the two
get_ask_price calls (the direct one and the one inside eur_to_volume) and the
pass_market_order call. `.error` is a raised exception, `.ok` the parsed
response value. -/
structure StratEnv where
  tick1 : Except String ℚ
  tick2 : Except String ℚ
  order : Except String OrderResponse

/-- An entry of the results list built by `execute_strategies`. The except
branch of the loop appends nothing, so there is no exception variant here. -/
inductive StratResult where
  | dryRunResult (pair : String) (amount_eur est_price volume : ℚ)
  | orderResp (resp : OrderResponse)
deriving DecidableEq

/-- One iteration of the strategy loop of src/main.py `execute_strategies`:
fetch the price, compute the volume via a second fetch, then either notify a
dry run, or place the order and notify success or failure; any raised
exception is caught, an exception embed is sent, and nothing is appended to
the results. Returns the emitted events and the optional appended result. -/
def processStrategy (dry_run : Bool) (s : Strategy) (env : StratEnv) :
    List Event × Option StratResult :=
  match env.tick1 with
  | Except.error e =>
    ([Event.fetchTicker s.pair, Event.notify (Embed.exceptionEmbed s.pair e)], none)
  | Except.ok price =>
    match env.tick2 with
    | Except.error e =>
      ([Event.fetchTicker s.pair, Event.fetchTicker s.pair,
        Event.notify (Embed.exceptionEmbed s.pair e)], none)
    | Except.ok price2 =>
      let volume := eur_to_volume s.amount_eur price2
      if dry_run then
        ([Event.fetchTicker s.pair, Event.fetchTicker s.pair,
          Event.notify (Embed.dryRunEmbed s.pair s.amount_eur price volume)],
         some (StratResult.dryRunResult s.pair s.amount_eur price volume))
      else
        match env.order with
        | Except.error e =>
          ([Event.fetchTicker s.pair, Event.fetchTicker s.pair,
            Event.placeOrder s.pair volume,
            Event.notify (Embed.exceptionEmbed s.pair e)], none)
        | Except.ok resp =>
          match resp.error with
          | e :: es =>
            ([Event.fetchTicker s.pair, Event.fetchTicker s.pair,
              Event.placeOrder s.pair volume,
              Event.notify (Embed.errorEmbed s.pair volume price (e :: es))],
             some (StratResult.orderResp resp))
          | [] =>
            ([Event.fetchTicker s.pair, Event.fetchTicker s.pair,
              Event.placeOrder s.pair volume,
              Event.notify (Embed.successEmbed s.pair volume price resp.txid)],
             some (StratResult.orderResp resp))

/-- src/main.py `execute_strategies`: process each strategy in configuration
order with its environment, concatenating events and collecting the appended
results. -/
def execute_strategies (dry_run : Bool) :
    List (Strategy × StratEnv) → List Event × List StratResult
  | [] => ([], [])
  | (s, env) :: rest =>
    let step := processStrategy dry_run s env
    let tail := execute_strategies dry_run rest
    (step.1 ++ tail.1, step.2.toList ++ tail.2)

/-- The environment of a whole run: the balance response, the system-status
outcome, and one strategy environment per strategy. -/
structure RunEnv where
  balance : BalanceResp
  status : Except String String
  stratEnvs : List StratEnv

/-- The __main__ flow of src/main.py after configuration loading:
ensure_sufficient_funds (SystemExit aborts the run), the start notification,
check_kraken_status (a raised exception aborts the run; status other than
online raises), execute_strategies, then the completion notification. -/
def mainRun (ss : List Strategy) (dry_run : Bool) (env : RunEnv) :
    List Event × List StratResult :=
  let gate := ensure_sufficient_funds ss env.balance
  match gate.2 with
  | GateOutcome.fetchError _ => (gate.1, [])
  | GateOutcome.insufficient _ _ => (gate.1, [])
  | GateOutcome.ok =>
    let evs1 := gate.1 ++ [Event.notify (Embed.start ss.length)]
    match env.status with
    | Except.error _ => (evs1 ++ [Event.fetchStatus], [])
    | Except.ok st =>
      if st = "online" then
        let er := execute_strategies dry_run (ss.zip env.stratEnvs)
        (evs1 ++ [Event.fetchStatus] ++ er.1 ++ [Event.notify Embed.completion], er.2)
      else (evs1 ++ [Event.fetchStatus], [])

/-- The JSON payload send_discord_message posts: content when non-empty,
embeds when an embed was given. -/
structure Payload where
  content : Option String
  embeds : List Embed
deriving DecidableEq

/-- The payload construction of src/discord_utils.py send_discord_message. -/
def buildPayload (content : String) (embed : Option Embed) : Payload :=
  { content := if content = "" then none else some content
  , embeds := match embed with | none => [] | some e => [e] }

/-- The effects of one send_discord_message call: the posts attempted and
whether a non-2xx warning was logged. -/
structure SendEffects where
  posts : List Payload
  warned : Bool
deriving DecidableEq

/-- src/discord_utils.py `send_discord_message`, given the outcome the
requests.post call would have (`.error` a raised exception, `.ok` a status
code). An `.error` result of this function itself would be an exception
propagating to the caller; the except clause of the source makes every branch
return `.ok`. -/
def send_discord_message (webhook_url : String) (content : String)
    (embed : Option Embed) (postResult : Except String Nat) :
    Except String SendEffects :=
  if webhook_url = "" then Except.ok { posts := [], warned := false }
  else
    match postResult with
    | Except.error _ =>
      Except.ok { posts := [buildPayload content embed], warned := false }
    | Except.ok status =>
      Except.ok { posts := [buildPayload content embed], warned := decide (300 ≤ status) }

/-! Concrete fixtures used by witnesses and counterexamples. -/

/-- A concrete instantiation of the cryptographic primitives, used to
evaluate the request-building code on explicit inputs. -/
def trivPrims : CryptoPrims :=
  { sha256 := fun l => l
  , hmacSha512 := fun k m => k ++ m
  , b64decode := fun s => pyEncode s
  , b64encode := fun l => toString l }

/-- Two strategies of 150 EUR each: the spec's required=300 example. -/
def c3strategies : List Strategy := [⟨"XXBTZEUR", 150⟩, ⟨"XETHZEUR", 150⟩]

/-- A run environment whose balance is 250 EUR, below the 300 required. -/
def c4env : RunEnv :=
  { balance := ⟨[], [("ZEUR", 250)]⟩, status := Except.ok "online", stratEnvs := [] }

/-- A strategy environment in which every call succeeds. -/
def c5okEnv : StratEnv :=
  { tick1 := Except.ok 100, tick2 := Except.ok 100, order := Except.ok ⟨[], ["TXID1"]⟩ }

/-- A strategy environment whose first ticker fetch raises. -/
def c5badEnv : StratEnv :=
  { tick1 := Except.error "boom", tick2 := Except.ok 100, order := Except.ok ⟨[], []⟩ }

/-- Three strategies of which only the second raises. -/
def c5items : List (Strategy × StratEnv) :=
  [(⟨"P1", 10⟩, c5okEnv), (⟨"P2", 20⟩, c5badEnv), (⟨"P3", 30⟩, c5okEnv)]

/-- A strategy environment whose ticker fetches succeed but whose
pass_market_order call raises (for example a network timeout). -/
def c5orderFailEnv : StratEnv :=
  { tick1 := Except.ok 100, tick2 := Except.ok 100, order := Except.error "timeout" }

/-- raisesWith d env e holds when the processing of a strategy under
environment env raises an exception with message e: at the first ticker
fetch, at the second ticker fetch inside eur_to_volume, or (outside dry-run
mode) at the pass_market_order call. These are exactly the raise points of
the try block of src/main.py execute_strategies that the embedding models. -/
def raisesWith (d : Bool) (env : StratEnv) (e : String) : Prop :=
  env.tick1 = Except.error e
  ∨ (∃ p1, env.tick1 = Except.ok p1 ∧ env.tick2 = Except.error e)
  ∨ (d = false ∧ ∃ p1 p2, env.tick1 = Except.ok p1 ∧ env.tick2 = Except.ok p2
       ∧ env.order = Except.error e)

/-- A strategy environment whose two ticker fetches return different
prices: 100 on the first call, 200 on the second. -/
def c10env : StratEnv :=
  { tick1 := Except.ok 100, tick2 := Except.ok 200, order := Except.ok ⟨[], []⟩ }

/-! Helper lemmas shared by the claim theorems. -/

/-- str.encode distributes over Python string concatenation. -/
theorem pyEncode_append (a b : String) : pyEncode (a ++ b) = pyEncode a ++ pyEncode b := by
  unfold pyEncode
  rw [String.data_append]
  exact List.flatMap_append a.data b.data utf8Bytes

/-- quote_plus leaves a list of URL-safe characters unchanged. -/
theorem flatMap_quotePlusChar_safe (l : List Char) (h : ∀ c ∈ l, urlSafe c = true) :
    l.flatMap quotePlusChar = l := by
  induction l with
  | nil => rfl
  | cons c cs ih =>
    have hc : urlSafe c = true := h c (List.mem_cons_self c cs)
    have hcs : ∀ x ∈ cs, urlSafe x = true := fun x hx => h x (List.mem_cons_of_mem c hx)
    simp [quotePlusChar, hc, ih hcs]

/-- quote_plus leaves a string of URL-safe characters unchanged. -/
theorem quote_plus_safe (s : String) (h : ∀ c ∈ s.data, urlSafe c = true) :
    quote_plus s = s := by
  unfold quote_plus
  rw [flatMap_quotePlusChar_safe s.data h]

/-- execute_strategies distributes over list append: each strategy is
processed independently and in order. -/
theorem exec_append (d : Bool) (xs ys : List (Strategy × StratEnv)) :
    execute_strategies d (xs ++ ys)
      = ((execute_strategies d xs).1 ++ (execute_strategies d ys).1,
         (execute_strategies d xs).2 ++ (execute_strategies d ys).2) := by
  induction xs with
  | nil => simp [execute_strategies]
  | cons x xs ih =>
    obtain ⟨s, env⟩ := x
    simp [execute_strategies, ih]

/-- A strategy iteration never fetches the balance. -/
theorem processStrategy_no_balance (d : Bool) (s : Strategy) (env : StratEnv) :
    Event.fetchBalance ∉ (processStrategy d s env).1 := by
  rcases env with ⟨t1, t2, ord⟩
  rcases t1 with e | p
  · simp [processStrategy]
  rcases t2 with e | p2
  · simp [processStrategy]
  rcases d
  · rcases ord with e | resp
    · simp [processStrategy]
    · rcases resp with ⟨err, tx⟩
      rcases err with _ | ⟨e, es⟩ <;> simp [processStrategy]
  · simp [processStrategy]

/-- The strategy loop never fetches the balance. -/
theorem exec_no_balance (d : Bool) (items : List (Strategy × StratEnv)) :
    Event.fetchBalance ∉ (execute_strategies d items).1 := by
  induction items with
  | nil => simp [execute_strategies]
  | cons x rest ih =>
    obtain ⟨s, env⟩ := x
    simp only [execute_strategies, List.mem_append, not_or]
    exact ⟨processStrategy_no_balance d s env, ih⟩

/-- A dry-run strategy iteration never places an order. -/
theorem processStrategy_dry_no_place (s : Strategy) (env : StratEnv) (pr : String) (v : ℚ) :
    Event.placeOrder pr v ∉ (processStrategy true s env).1 := by
  rcases env with ⟨t1, t2, ord⟩
  rcases t1 with e | p
  · simp [processStrategy]
  rcases t2 with e | p2
  · simp [processStrategy]
  simp [processStrategy]

/-- The dry-run strategy loop never places an order. -/
theorem exec_dry_no_place (items : List (Strategy × StratEnv)) (pr : String) (v : ℚ) :
    Event.placeOrder pr v ∉ (execute_strategies true items).1 := by
  induction items with
  | nil => simp [execute_strategies]
  | cons x rest ih =>
    obtain ⟨s, env⟩ := x
    simp only [execute_strategies, List.mem_append, not_or]
    exact ⟨processStrategy_dry_no_place s env pr v, ih⟩

/-- With an error-free balance response and insufficient available funds, the
gate emits the insufficient-funds notification and aborts with the pair
(required, available). -/
theorem gate_insufficient_spec (ss : List Strategy) (resp : BalanceResp)
    (h1 : resp.error = [])
    (h2 : availableEur resp.result + epsilon < totalRequired ss) :
    ensure_sufficient_funds ss resp
      = ([Event.fetchBalance,
          Event.notify (Embed.insufficientFunds (totalRequired ss) (availableEur resp.result))],
         GateOutcome.insufficient (totalRequired ss) (availableEur resp.result)) := by
  rcases resp with ⟨err, res⟩
  simp only [BalanceResp.error] at h1
  subst h1
  simp only [BalanceResp.result] at h2
  simp [ensure_sufficient_funds, h2]

/-- With an error-free balance response, the gate accepts exactly when the
required total is at most available + epsilon. -/
theorem gate_ok_iff (ss : List Strategy) (resp : BalanceResp) (h : resp.error = []) :
    (ensure_sufficient_funds ss resp).2 = GateOutcome.ok
      ↔ totalRequired ss ≤ availableEur resp.result + epsilon := by
  rcases resp with ⟨err, res⟩
  simp only [BalanceResp.error] at h
  subst h
  by_cases hlt : availableEur res + epsilon < totalRequired ss
  · simp [ensure_sufficient_funds, hlt, not_le.mpr hlt]
  · simp [ensure_sufficient_funds, hlt, not_lt.mp hlt]

/-- An aborting gate stops the whole run: the trace is exactly the balance
fetch and the insufficient-funds notification, and no result is produced. -/
theorem mainRun_insufficient (ss : List Strategy) (d : Bool) (env : RunEnv)
    (h1 : env.balance.error = [])
    (h2 : availableEur env.balance.result + epsilon < totalRequired ss) :
    mainRun ss d env
      = ([Event.fetchBalance,
          Event.notify (Embed.insufficientFunds (totalRequired ss) (availableEur env.balance.result))],
         []) := by
  rcases env with ⟨resp, st, senvs⟩
  simp only [RunEnv.balance] at h1 h2
  simp [mainRun, gate_insufficient_spec ss resp h1 h2]

/-- Every run trace starts with the balance fetch, and fetches the balance
only that once. -/
theorem mainRun_balance_once (ss : List Strategy) (d : Bool) (env : RunEnv) :
    ∃ rest, (mainRun ss d env).1 = Event.fetchBalance :: rest
      ∧ Event.fetchBalance ∉ rest := by
  rcases env with ⟨⟨err, res⟩, status, senvs⟩
  rcases err with _ | ⟨e, es⟩
  · by_cases hlt : availableEur res + epsilon < totalRequired ss
    · exact ⟨[Event.notify (Embed.insufficientFunds (totalRequired ss) (availableEur res))],
        by simp [mainRun, ensure_sufficient_funds, hlt], by simp⟩
    · rcases status with eS | st
      · exact ⟨[Event.notify (Embed.start ss.length), Event.fetchStatus],
          by simp [mainRun, ensure_sufficient_funds, hlt], by simp⟩
      · by_cases hst : st = "online"
        · subst hst
          refine ⟨Event.notify (Embed.start ss.length) :: Event.fetchStatus ::
              ((execute_strategies d (ss.zip senvs)).1 ++ [Event.notify Embed.completion]), ?_, ?_⟩
          · simp [mainRun, ensure_sufficient_funds, hlt]
          · simp only [List.mem_cons, List.mem_append, List.mem_singleton, not_or]
            refine ⟨by simp, by simp, exec_no_balance d (ss.zip senvs), by simp⟩
        · exact ⟨[Event.notify (Embed.start ss.length), Event.fetchStatus],
            by simp [mainRun, ensure_sufficient_funds, hlt, hst], by simp⟩
  · exact ⟨[Event.notify (Embed.balanceError (e :: es))],
      by simp [mainRun, ensure_sufficient_funds], by simp⟩

/-- A strategy iteration that raises appends nothing to the results and
emits the exception notification for its pair. -/
theorem processStrategy_raises (d : Bool) (s : Strategy) (env : StratEnv) (e : String)
    (h : raisesWith d env e) :
    (processStrategy d s env).2 = none
    ∧ Event.notify (Embed.exceptionEmbed s.pair e) ∈ (processStrategy d s env).1 := by
  rcases env with ⟨t1, t2, ord⟩
  simp only [raisesWith, StratEnv.tick1, StratEnv.tick2, StratEnv.order] at h
  rcases h with h | ⟨p1, h1, h2⟩ | ⟨hd, p1, p2, h1, h2, h3⟩
  · subst h
    simp [processStrategy]
  · subst h1
    subst h2
    simp [processStrategy]
  · subst hd
    subst h1
    subst h2
    subst h3
    simp [processStrategy]

/-! Claim theorems. -/

/-- C1: for every secret, nonce, serialized body and path, the signer returns
base64(HMAC-SHA512(key = base64-decode(secret),
message = pathBytes ++ SHA256(nonceBytes ++ bodyBytes))), and two calls with
the same four inputs return the same signature string. -/
theorem c1_signature_formula (p : CryptoPrims)
    (secret data nonce path secret2 data2 nonce2 path2 : String)
    (h1 : secret = secret2) (h2 : data = data2) (h3 : nonce = nonce2) (h4 : path = path2) :
    get_signature p secret data nonce path
      = p.b64encode (p.hmacSha512 (p.b64decode secret)
          (pyEncode path ++ p.sha256 (pyEncode nonce ++ pyEncode data)))
    ∧ get_signature p secret data nonce path = get_signature p secret2 data2 nonce2 path2 := by
  subst h1; subst h2; subst h3; subst h4
  refine ⟨?_, rfl⟩
  unfold get_signature sign
  rw [pyEncode_append]

/-- Witness for C1 at concrete inputs. -/
theorem c1_signature_formula_witness :
    get_signature trivPrims "secret" "data" "nonce" "path"
      = trivPrims.b64encode (trivPrims.hmacSha512 (trivPrims.b64decode "secret")
          (pyEncode "path" ++ trivPrims.sha256 (pyEncode "nonce" ++ pyEncode "data")))
    ∧ get_signature trivPrims "secret" "data" "nonce" "path"
      = get_signature trivPrims "secret" "data" "nonce" "path" :=
  c1_signature_formula trivPrims "secret" "data" "nonce" "path"
    "secret" "data" "nonce" "path" rfl rfl rfl rfl

/-- C7 is false of the code: two nonce generations within the same wall-clock
millisecond (here at 1000.0001s and 1000.0009s) return the same value
1000000, not strictly increasing values. -/
theorem c7_nonce_collision :
    (1000 + 1 / 10000 : ℚ) < 1000 + 9 / 10000
    ∧ get_nonce (1000 + 1 / 10000) = 1000000
    ∧ get_nonce (1000 + 9 / 10000) = 1000000 := by
  refine ⟨by norm_num, ?_, ?_⟩
  all_goals unfold get_nonce pyInt
  all_goals norm_num

/-- C8: the available fiat is the ZEUR entry if present, else the EUR entry
if present, else 0; a balance with neither alias yields 0 and can trigger the
insufficient-funds abort. -/
theorem c8_fiat_lookup (bal : List (String × ℚ)) (v : ℚ) :
    (assocGet bal "ZEUR" = some v → availableEur bal = v)
    ∧ (assocGet bal "ZEUR" = none → assocGet bal "EUR" = some v → availableEur bal = v)
    ∧ (assocGet bal "ZEUR" = none → assocGet bal "EUR" = none → availableEur bal = 0)
    ∧ (ensure_sufficient_funds [⟨"XXBTZEUR", 300⟩] ⟨[], [("USD", 500)]⟩).2
        = GateOutcome.insufficient 300 0 := by
  refine ⟨?_, ?_, ?_, ?_⟩
  · intro h1
    simp [availableEur, h1]
  · intro h1 h2
    simp [availableEur, h1, h2]
  · intro h1 h2
    simp [availableEur, h1, h2]
  · have hc : availableEur [("USD", 500)] + epsilon < totalRequired [⟨"XXBTZEUR", 300⟩] := by
      simp [availableEur, assocGet]
      norm_num [totalRequired, epsilon]
    have h0 : availableEur [("USD", 500)] = 0 := by simp [availableEur, assocGet]
    have ht : totalRequired [⟨"XXBTZEUR", 300⟩] = 300 := by norm_num [totalRequired]
    rw [gate_insufficient_spec [⟨"XXBTZEUR", 300⟩] ⟨[], [("USD", 500)]⟩ rfl hc]
    rw [ht, h0]

/-- Witness for C8 at concrete balance maps. -/
theorem c8_fiat_lookup_witness :
    availableEur [("USD", (500 : ℚ))] = 0 ∧ availableEur [("ZEUR", (7 : ℚ))] = 7 :=
  ⟨(c8_fiat_lookup [("USD", 500)] 0).2.2.1 (by decide) (by decide),
   (c8_fiat_lookup [("ZEUR", 7)] 7).1 (by decide)⟩

/-- C9: a notification send returns normally for every outcome of the post
(raised exception or any status code), and an empty webhook target performs
no network call. -/
theorem c9_notifier_swallow (webhook content : String) (embed : Option Embed)
    (r : Except String Nat) :
    (∃ eff, send_discord_message webhook content embed r = Except.ok eff)
    ∧ send_discord_message "" content embed r = Except.ok { posts := [], warned := false } := by
  constructor
  · by_cases h : webhook = ""
    · exact ⟨{ posts := [], warned := false }, by simp [send_discord_message, h]⟩
    · rcases r with e | status
      · exact ⟨{ posts := [buildPayload content embed], warned := false },
          by simp [send_discord_message, h]⟩
      · exact ⟨{ posts := [buildPayload content embed], warned := decide (300 ≤ status) },
          by simp [send_discord_message, h]⟩
  · simp [send_discord_message]

/-- C10: the reported price and the reported volume come from two separate
ticker fetches: with responses 100 then 200 for a 100 EUR strategy, the
produced result carries estimated price 100 together with volume
round(100 / 200, 8) = 0.5, which is inconsistent with the reported price
(consistency would require round(100 / 100, 8), and that differs). -/
theorem c10_inconsistent_price_volume :
    (100 : ℚ) ≠ 200
    ∧ processStrategy true ⟨"XXBTZEUR", 100⟩ c10env
        = ([Event.fetchTicker "XXBTZEUR", Event.fetchTicker "XXBTZEUR",
            Event.notify (Embed.dryRunEmbed "XXBTZEUR" 100 100 (1 / 2))],
           some (StratResult.dryRunResult "XXBTZEUR" 100 100 (1 / 2)))
    ∧ round8 ((100 : ℚ) / 200) = 1 / 2
    ∧ round8 ((100 : ℚ) / 100) ≠ 1 / 2 := by
  have h2 : round8 ((100 : ℚ) / 200) = 1 / 2 := by
    unfold round8 roundHalfEven
    norm_num
  have h1 : round8 ((100 : ℚ) / 100) = 1 := by
    unfold round8 roundHalfEven
    norm_num
  refine ⟨by norm_num, ?_, h2, by rw [h1]; norm_num⟩
  simp [processStrategy, c10env, eur_to_volume, h2]

/-- C2 is false as stated: with pair "A&B" the body the requests library
sends (percent-escaped form encoding of the dict) differs from the
'&'-joined string that was hashed into the signature. -/
theorem c2_sent_body_differs :
    (pass_market_order trivPrims "key" "secret" "A&B" "0.5" "1").sent_body
      ≠ (pass_market_order trivPrims "key" "secret" "A&B" "0.5" "1").signed_string := by
  decide

/-- C2 amended: the string hashed into the signature is always the body
fields serialized as key=value pairs joined by ampersands in declared
insertion order (nonce, ordertype, type, volume, pair); the HTTP POST body
equals this exact string whenever every character of the field values is
URL-safe (alphanumeric or one of underscore, dot, dash, tilde), as is the
case for valid pair codes and numeric volumes. -/
theorem c2_serialization (p : CryptoPrims) (api_key api_secret pair volume nonce : String)
    (h1 : ∀ c ∈ nonce.data, urlSafe c = true)
    (h2 : ∀ c ∈ volume.data, urlSafe c = true)
    (h3 : ∀ c ∈ pair.data, urlSafe c = true) :
    (pass_market_order p api_key api_secret pair volume nonce).signed_string
      = joinAmp [("nonce", nonce), ("ordertype", "market"), ("type", "buy"),
                 ("volume", volume), ("pair", pair)]
    ∧ (pass_market_order p api_key api_secret pair volume nonce).api_sign
      = get_signature p api_secret
          (pass_market_order p api_key api_secret pair volume nonce).signed_string
          nonce "/0/private/AddOrder"
    ∧ (pass_market_order p api_key api_secret pair volume nonce).sent_body
      = (pass_market_order p api_key api_secret pair volume nonce).signed_string := by
  refine ⟨rfl, rfl, ?_⟩
  show urlencode (marketOrderFields nonce volume pair)
      = joinAmp (marketOrderFields nonce volume pair)
  have kn : quote_plus "nonce" = "nonce" := rfl
  have ko : quote_plus "ordertype" = "ordertype" := rfl
  have km : quote_plus "market" = "market" := rfl
  have kt : quote_plus "type" = "type" := rfl
  have kb : quote_plus "buy" = "buy" := rfl
  have kv : quote_plus "volume" = "volume" := rfl
  have kp : quote_plus "pair" = "pair" := rfl
  simp [urlencode, marketOrderFields, kn, ko, km, kt, kb, kv, kp,
        quote_plus_safe nonce h1, quote_plus_safe volume h2, quote_plus_safe pair h3]

/-- Witness for the amended C2 at concrete URL-safe inputs. -/
theorem c2_serialization_witness :
    (pass_market_order trivPrims "key" "secret" "XXBTZEUR" "0.00200000" "1700000000000").signed_string
      = joinAmp [("nonce", "1700000000000"), ("ordertype", "market"), ("type", "buy"),
                 ("volume", "0.00200000"), ("pair", "XXBTZEUR")]
    ∧ (pass_market_order trivPrims "key" "secret" "XXBTZEUR" "0.00200000" "1700000000000").api_sign
      = get_signature trivPrims "secret"
          (pass_market_order trivPrims "key" "secret" "XXBTZEUR" "0.00200000" "1700000000000").signed_string
          "1700000000000" "/0/private/AddOrder"
    ∧ (pass_market_order trivPrims "key" "secret" "XXBTZEUR" "0.00200000" "1700000000000").sent_body
      = (pass_market_order trivPrims "key" "secret" "XXBTZEUR" "0.00200000" "1700000000000").signed_string :=
  c2_serialization trivPrims "key" "secret" "XXBTZEUR" "0.00200000" "1700000000000"
    (by decide) (by decide) (by decide)

/-- C3: with an error-free balance response the gate accepts exactly when
required is at most available + epsilon with epsilon = 1e-8, and otherwise it
aborts the whole run carrying (required, available) with no strategy
executed; for required=300 it accepts available=299.999999995 and rejects
available=250 reporting (300, 250). -/
theorem c3_balance_gate (ss : List Strategy) (resp : BalanceResp) (h : resp.error = []) :
    ((ensure_sufficient_funds ss resp).2 = GateOutcome.ok
        ↔ totalRequired ss ≤ availableEur resp.result + epsilon)
    ∧ (availableEur resp.result + epsilon < totalRequired ss →
         ∀ d st senvs, mainRun ss d ⟨resp, st, senvs⟩
           = ([Event.fetchBalance,
               Event.notify (Embed.insufficientFunds (totalRequired ss) (availableEur resp.result))],
              []))
    ∧ epsilon = 1 / 100000000
    ∧ (ensure_sufficient_funds c3strategies ⟨[], [("ZEUR", 299999999995 / 1000000000)]⟩).2
        = GateOutcome.ok
    ∧ (ensure_sufficient_funds c3strategies ⟨[], [("ZEUR", 250)]⟩).2
        = GateOutcome.insufficient 300 250 := by
  refine ⟨gate_ok_iff ss resp h, ?_, rfl, ?_, ?_⟩
  · intro hlt d st senvs
    exact mainRun_insufficient ss d ⟨resp, st, senvs⟩ h hlt
  · rw [gate_ok_iff c3strategies ⟨[], [("ZEUR", 299999999995 / 1000000000)]⟩ rfl]
    simp [availableEur, assocGet]
    norm_num [totalRequired, epsilon, c3strategies]
  · have hc : availableEur [("ZEUR", 250)] + epsilon < totalRequired c3strategies := by
      simp [availableEur, assocGet]
      norm_num [totalRequired, epsilon, c3strategies]
    have h0 : availableEur [("ZEUR", 250)] = 250 := by simp [availableEur, assocGet]
    have ht : totalRequired c3strategies = 300 := by norm_num [totalRequired, c3strategies]
    rw [gate_insufficient_spec c3strategies ⟨[], [("ZEUR", 250)]⟩ rfl hc]
    rw [ht, h0]

/-- Witness for C3 at a concrete aborting run. -/
theorem c3_balance_gate_witness :
    (ensure_sufficient_funds c3strategies ⟨[], [("ZEUR", 250)]⟩).2
      = GateOutcome.insufficient 300 250 :=
  (c3_balance_gate c3strategies ⟨[], [("ZEUR", 250)]⟩ rfl).2.2.2.2

/-- C4: every run fetches the balance before everything else and only once
(the gate is not re-checked per order), and when the gate finds the required
total above available + epsilon no order-placement call occurs in the run. -/
theorem c4_gate_before_any_order (ss : List Strategy) (d d2 : Bool) (env env2 : RunEnv)
    (h1 : env.balance.error = [])
    (h2 : availableEur env.balance.result + epsilon < totalRequired ss) :
    (∀ p v, Event.placeOrder p v ∉ (mainRun ss d env).1)
    ∧ (mainRun ss d2 env2).1.head? = some Event.fetchBalance
    ∧ (∃ rest, (mainRun ss d2 env2).1 = Event.fetchBalance :: rest
         ∧ Event.fetchBalance ∉ rest) := by
  refine ⟨?_, ?_, mainRun_balance_once ss d2 env2⟩
  · intro p v
    rw [mainRun_insufficient ss d env h1 h2]
    simp
  · obtain ⟨rest, hr, _⟩ := mainRun_balance_once ss d2 env2
    rw [hr]
    rfl

/-- Witness for C4 at a concrete insufficient run. -/
theorem c4_gate_before_any_order_witness :
    Event.placeOrder "XXBTZEUR" 1 ∉ (mainRun c3strategies false c4env).1 :=
  (c4_gate_before_any_order c3strategies false false c4env c4env rfl
    (by simp [c4env, availableEur, assocGet]
        norm_num [totalRequired, epsilon, c3strategies])).1 "XXBTZEUR" 1

/-- C5 is false as stated: with 3 strategies of which only the second raises,
the except branch of the loop appends nothing, so the returned result list
has length 2, not 3. -/
theorem c5_no_exception_result :
    (execute_strategies false c5items).2.length = 2
    ∧ (execute_strategies false c5items).2.length ≠ 3 := by
  have h : (execute_strategies false c5items).2
      = [StratResult.orderResp ⟨[], ["TXID1"]⟩, StratResult.orderResp ⟨[], ["TXID1"]⟩] := by
    simp [execute_strategies, processStrategy, c5items, c5okEnv, c5badEnv]
  rw [h]
  exact ⟨rfl, by norm_num⟩

/-- C5 amended: when the processing of one strategy raises at any of its
raise points (the first ticker fetch, the second ticker fetch inside
eur_to_volume, or the pass_market_order call), the exception is caught at
that strategy's boundary, an exception notification for its pair is emitted,
and the remaining strategies are still processed in order; however nothing is
appended to the result list for the raising strategy, so the run's results
are exactly those of the other strategies. -/
theorem c5_exception_isolation (d : Bool) (s : Strategy) (env : StratEnv) (e : String)
    (xs ys : List (Strategy × StratEnv)) (h : raisesWith d env e) :
    (execute_strategies d (xs ++ (s, env) :: ys)).2
      = (execute_strategies d xs).2 ++ (execute_strategies d ys).2
    ∧ (execute_strategies d (xs ++ (s, env) :: ys)).1
      = (execute_strategies d xs).1
        ++ ((processStrategy d s env).1 ++ (execute_strategies d ys).1)
    ∧ Event.notify (Embed.exceptionEmbed s.pair e)
        ∈ (execute_strategies d (xs ++ (s, env) :: ys)).1 := by
  obtain ⟨hnone, hmem⟩ := processStrategy_raises d s env e h
  rw [exec_append]
  refine ⟨?_, ?_, ?_⟩
  · simp [execute_strategies, hnone]
  · simp [execute_strategies]
  · simp [execute_strategies, List.mem_append, hmem]

/-- Witness for the amended C5: the raising call is the order placement
itself, with the ticker fetches succeeding. -/
theorem c5_exception_isolation_witness :
    (execute_strategies false ([(⟨"P1", 10⟩, c5okEnv)] ++ (⟨"P2", 20⟩, c5orderFailEnv) :: [(⟨"P3", 30⟩, c5okEnv)])).2
      = (execute_strategies false [(⟨"P1", 10⟩, c5okEnv)]).2
        ++ (execute_strategies false [(⟨"P3", 30⟩, c5okEnv)]).2
    ∧ Event.notify (Embed.exceptionEmbed "P2" "timeout")
        ∈ (execute_strategies false ([(⟨"P1", 10⟩, c5okEnv)] ++ (⟨"P2", 20⟩, c5orderFailEnv) :: [(⟨"P3", 30⟩, c5okEnv)])).1 := by
  have h := c5_exception_isolation false ⟨"P2", 20⟩ c5orderFailEnv "timeout"
    [(⟨"P1", 10⟩, c5okEnv)] [(⟨"P3", 30⟩, c5okEnv)]
    (Or.inr (Or.inr ⟨rfl, 100, 100, rfl, rfl, rfl⟩))
  exact ⟨h.1, h.2.2⟩

/-- C6: with dryRun true the strategy loop never calls order placement for
any list of strategies and environments, and a strategy whose two ticker
fetches return p1 and p2 produces the simulated result carrying its pair,
its fiat amount, estimated price p1, and volume round(amount / p2, 8). -/
theorem c6_dry_run (items : List (Strategy × StratEnv)) (s : Strategy) (env : StratEnv)
    (p1 p2 : ℚ) (h1 : env.tick1 = Except.ok p1) (h2 : env.tick2 = Except.ok p2) :
    (∀ pr v, Event.placeOrder pr v ∉ (execute_strategies true items).1)
    ∧ processStrategy true s env
        = ([Event.fetchTicker s.pair, Event.fetchTicker s.pair,
            Event.notify (Embed.dryRunEmbed s.pair s.amount_eur p1 (round8 (s.amount_eur / p2)))],
           some (StratResult.dryRunResult s.pair s.amount_eur p1 (round8 (s.amount_eur / p2)))) := by
  refine ⟨fun pr v => exec_dry_no_place items pr v, ?_⟩
  rcases env with ⟨t1, t2, ord⟩
  simp only [StratEnv.tick1] at h1
  simp only [StratEnv.tick2] at h2
  subst h1
  subst h2
  simp [processStrategy, eur_to_volume]

/-- Witness for C6 at a concrete dry run. -/
theorem c6_dry_run_witness :
    Event.placeOrder "XXBTZEUR" 1
        ∉ (execute_strategies true [(⟨"XXBTZEUR", 100⟩, c10env)]).1
    ∧ processStrategy true ⟨"XXBTZEUR", 100⟩ c10env
        = ([Event.fetchTicker "XXBTZEUR", Event.fetchTicker "XXBTZEUR",
            Event.notify (Embed.dryRunEmbed "XXBTZEUR" 100 100 (round8 ((100 : ℚ) / 200)))],
           some (StratResult.dryRunResult "XXBTZEUR" 100 100 (round8 ((100 : ℚ) / 200)))) := by
  have h := c6_dry_run [(⟨"XXBTZEUR", 100⟩, c10env)] ⟨"XXBTZEUR", 100⟩ c10env 100 200 rfl rfl
  exact ⟨h.1 "XXBTZEUR" 1, h.2⟩

end KrakenDCA
